import Mathlib

/-!
Verification of the worker/substep-executor layer of the SOS workflow engine
(files substep_executor.py and workers.py), as a shallow embedding.

The embedding models the control flow of the functions _execute_substep and
execute_substep (substep_executor.py), of the run loops of SoS_Worker and
SoS_SubStep_Worker, and of the namespace preparation and coroutine relay in
SoS_Worker.run_step (workers.py).  External calls (SoS_exec, verify_input,
validate_step_sig, sig.lock, psutil process enumeration, sockets) are modelled
by outcome fields of an input record, and every externally visible action is
recorded in an event trace.
-/

/-- Python exceptions that can arrive at the except clauses of
_execute_substep.  The first five are the structured control-flow signals of
line 143; keyboardInterrupt and systemExit are the cancellation kinds of line
149; calledProcessError carries returncode and stderr text (line 173);
argumentError is the validation error of line 180; other stands for any other
Exception subclass, carrying the class name and the detail text (line 183). -/
inductive Exc where
  | stopInputGroup
  | terminateExecution
  | unknownTarget
  | removedTarget
  | unavailableLock
  | keyboardInterrupt
  | systemExit
  | calledProcessError (returncode : Int) (stderrText : String)
  | argumentError (msg : String)
  | other (className : String) (detail : String)
deriving DecidableEq

/-- Membership in the tuple of the except clause at line 143. -/
def isStructured : Exc → Bool
  | .stopInputGroup => true
  | .terminateExecution => true
  | .unknownTarget => true
  | .removedTarget => true
  | .unavailableLock => true
  | _ => false

/-- Membership in the tuple of the except clause at line 149. -/
def isCancel : Exc → Bool
  | .keyboardInterrupt => true
  | .systemExit => true
  | _ => false

/-- Membership in the except clause at line 180. -/
def isArgErr : Exc → Bool
  | .argumentError _ => true
  | _ => false

/-- Value stored in the exception field of a result record: either one of the
structured signal objects passed through unchanged, or a plain RuntimeError
built from a string (lines 176, 199 and 203), or the ArgumentError object
(line 182).  Only plain data, no live process or traceback objects. -/
inductive ExcVal where
  | structured (e : Exc)
  | runtimeError (msg : String)
  | argError (msg : String)
deriving DecidableEq

/-- The record returned by validate_step_sig on a signature match: the stored
output and the stored shared context (matched[output], matched[vars]). -/
structure Matched where
  output : String
  vars : String
deriving DecidableEq

/-- The result dictionary of _execute_substep.  Optional keys of the Python
dict are Option fields; none means the key is absent. -/
structure SRes where
  index : Int
  ret_code : Int
  sig_skipped : Option Nat := none
  output : Option String := none
  shared : Option String := none
  stdout : Option String := none
  stderr : Option String := none
  exception : Option ExcVal := none
deriving DecidableEq

deriving instance DecidableEq for Except

/-- Externally visible actions of one call to _execute_substep, in program
order.  progress carries the event name sent on the controller push socket. -/
inductive Event where
  | sigValidate
  | progress (name : String)
  | sigLock
  | sigRelease
  | verifyInput
  | redirectStreams
  | execStmt
  | restoreStreams
  | reevalOutput
  | sigSetOutput
  | sigWrite
  | clearOutput
  | terminateProc (pid : Nat)
  | killProc (pid : Nat)
  | waitProcs
  | logFailedKill (pid : Nat)
  | logInterrupted
deriving DecidableEq

/-- How one call to _execute_substep ends: a returned result dictionary, or a
re-raised exception escaping the call. -/
inductive Outcome where
  | returned (r : SRes)
  | raised (e : Exc)
deriving DecidableEq

/-- Input of one call to _execute_substep: the values read from env and the
outcome of every external call the body makes.  children, aliveAfterTerm and
aliveAfterKill describe the psutil process tree: the recursive child list, the
survivors of terminate plus the bounded wait, and the survivors of kill plus
the second bounded wait. -/
structure SubstepIn where
  index : Int
  sig_mode_ignore : Bool
  output_unspecified : Bool
  validate_res : Option Matched
  lock_res : Except Exc Unit
  verify_res : Except Exc Unit
  exec_res : Except Exc Unit
  exec_stdout : String
  exec_stderr : String
  step_output_undetermined : Bool
  sig_write_ok : Bool
  sig_out : String
  sig_shared : String
  capture_output : Bool
  children : List Nat
  aliveAfterTerm : List Nat
  aliveAfterKill : List Nat
  verbosity : Nat
  tb_msg : String

/-- Line 94: sig is constructed unless sig_mode is ignore or the output is
unspecified. -/
def sigConstructed (inp : SubstepIn) : Bool :=
  !(inp.sig_mode_ignore || inp.output_unspecified)

/-- Lines 111-112: the short-circuit result on a signature match. -/
def skipRes (inp : SubstepIn) (m : Matched) : SRes :=
  { index := inp.index, ret_code := 0, sig_skipped := some 1,
    output := some m.output, shared := some m.vars }

/-- A string of n spaces, for the field padding of the diagnostic header. -/
def spaces (n : Nat) : String :=
  String.mk (List.replicate n (Char.ofNat 32))

/-- Left-justified padding of the class name to width 42, as in the format
specifier of line 201. -/
def padClass (cls : String) : String :=
  cls ++ spaces (42 - cls.length)

/-- Lines 199-203: the message of the RuntimeError synthesized for an
uncaught error, with the windowed traceback text msg when any frame came from
the dynamically compiled body, else the short class-and-detail form. -/
def genericErrMsg (cls msg detail : String) : String :=
  if msg = "" then cls ++ ": " ++ detail
  else
    "\n---------------------------------------------------------------------------\n"
      ++ padClass cls ++ "Traceback (most recent call last)\n"
      ++ msg ++ "\n" ++ cls ++ ": " ++ detail

/-- Partial outcome of the part of the try body after the signature check:
result or exception, the events of that part, the values of outmsg and errmsg
at its end, and whether the standard streams are left redirected. -/
structure RestOut where
  res : Except Exc SRes
  events : List Event
  outmsg : String
  errmsg : String
  redirected : Bool

/-- Lines 129-142: the tail of the try body after SoS_exec succeeded:
re-evaluate an undetermined output, build the success result, write the
signature when sig is non-None, add captured output, emit the
substep_completed progress event.  sigNN says whether sig is non-None. -/
def afterExec (inp : SubstepIn) (sigNN : Bool) (outmsg errmsg : String) : RestOut :=
  let evs1 : List Event := if inp.step_output_undetermined then [.reevalOutput] else []
  let evs2 : List Event := if sigNN then [.sigSetOutput, .sigWrite] else []
  let res0 : SRes := { index := inp.index, ret_code := 0 }
  let res1 : SRes :=
    if sigNN && inp.sig_write_ok then
      { res0 with output := some inp.sig_out, shared := some inp.sig_shared }
    else res0
  let res2 : SRes :=
    if inp.capture_output then
      { res1 with stdout := some outmsg, stderr := some errmsg }
    else res1
  ⟨.ok res2, evs1 ++ evs2 ++ [.progress "substep_completed"], outmsg, errmsg, false⟩

/-- Lines 120-142: verify_input, then statement execution.  When
capture_output holds, the statement runs inside the stdoutIO context manager,
which redirects the standard streams; stdoutIO has no protection of its
restore statements, so when SoS_exec raises, the redirect is left in place
(no restoreStreams event and redirected stays true) and outmsg and errmsg
keep their initial empty values. -/
def restOfTry (inp : SubstepIn) (sigNN : Bool) : RestOut :=
  match inp.verify_res with
  | .error e => ⟨.error e, [.verifyInput], "", "", false⟩
  | .ok _ =>
    if inp.capture_output then
      match inp.exec_res with
      | .error e => ⟨.error e, [.verifyInput, .redirectStreams, .execStmt], "", "", true⟩
      | .ok _ =>
        let a := afterExec inp sigNN inp.exec_stdout inp.exec_stderr
        ⟨a.res, .verifyInput :: .redirectStreams :: .execStmt :: .restoreStreams :: a.events,
          a.outmsg, a.errmsg, a.redirected⟩
    else
      match inp.exec_res with
      | .error e => ⟨.error e, [.verifyInput, .execStmt], "", "", false⟩
      | .ok _ =>
        let a := afterExec inp sigNN "" ""
        ⟨a.res, .verifyInput :: .execStmt :: a.events, a.outmsg, a.errmsg, a.redirected⟩

/-- Outcome of the whole try body (lines 103-142): result or exception,
events, whether sig is non-None when control reaches the finally clause, the
outmsg and errmsg values, and the stream redirection state. -/
structure BodyOut where
  res : Except Exc SRes
  events : List Event
  sigNonNone : Bool
  outmsg : String
  errmsg : String
  redirected : Bool

/-- Lines 103-142: the try body.  When sig was constructed, validate it; on a
match, set sig to None, emit the substep_ignored progress event and return
the short-circuit result; otherwise acquire the lock (which may itself raise)
and run the rest.  When sig was not constructed, run the rest directly. -/
def runTry (inp : SubstepIn) : BodyOut :=
  if sigConstructed inp then
    match inp.validate_res with
    | some m =>
      ⟨.ok (skipRes inp m), [.sigValidate, .progress "substep_ignored"], false, "", "", false⟩
    | none =>
      match inp.lock_res with
      | .error e => ⟨.error e, [.sigValidate], true, "", "", false⟩
      | .ok _ =>
        let r := restOfTry inp true
        ⟨r.res, .sigValidate :: .sigLock :: r.events, true, r.outmsg, r.errmsg, r.redirected⟩
  else
    let r := restOfTry inp false
    ⟨r.res, r.events, false, r.outmsg, r.errmsg, r.redirected⟩

/-- Lines 155-171: subprocess-tree cleanup on cancellation.  When the child
list is nonempty: optional info log, terminate every child, bounded wait,
kill every survivor, bounded wait again, warn for every process still alive.
When it is empty: only the optional info log. -/
def cancelCleanup (inp : SubstepIn) : List Event :=
  if inp.children.isEmpty then
    (if 2 < inp.verbosity then [.logInterrupted] else [])
  else
    (if 2 < inp.verbosity then [.logInterrupted] else [])
      ++ inp.children.map Event.terminateProc ++ [.waitProcs]
      ++ inp.aliveAfterTerm.map Event.killProc ++ [.waitProcs]
      ++ inp.aliveAfterKill.map Event.logFailedKill

/-- Lines 143-206: the except clauses.  Structured signals, external command
failures, argument errors and uncaught errors each clear the output and
return a result dictionary; the cancellation kinds clear the output, run the
subprocess cleanup and re-raise. -/
def handleExc (inp : SubstepIn) (e : Exc) (outmsg errmsg : String) : Outcome × List Event :=
  match e with
  | .stopInputGroup | .terminateExecution | .unknownTarget | .removedTarget | .unavailableLock =>
    let res : SRes := { index := inp.index, ret_code := 1, exception := some (.structured e) }
    let res : SRes :=
      if inp.capture_output then { res with stdout := some outmsg, stderr := some errmsg }
      else res
    (.returned res, [.clearOutput])
  | .keyboardInterrupt | .systemExit =>
    (.raised e, .clearOutput :: cancelCleanup inp)
  | .calledProcessError rc stderrText =>
    let res : SRes := { index := inp.index, ret_code := rc,
                        exception := some (.runtimeError stderrText) }
    let res : SRes :=
      if inp.capture_output then { res with stdout := some outmsg, stderr := some errmsg }
      else res
    (.returned res, [.clearOutput])
  | .argumentError m =>
    (.returned { index := inp.index, ret_code := 1, exception := some (.argError m) },
      [.clearOutput])
  | .other cls detail =>
    let res : SRes := { index := inp.index, ret_code := 1,
                        exception := some (.runtimeError (genericErrMsg cls inp.tb_msg detail)) }
    let res : SRes :=
      if inp.capture_output then { res with stdout := some outmsg, stderr := some errmsg }
      else res
    (.returned res, [.clearOutput])

/-- Final state of one call to _execute_substep: the outcome, the full event
trace, and whether the standard streams are left redirected when the call
ends. -/
structure FinalOut where
  outcome : Outcome
  events : List Event
  redirected : Bool

/-- Lines 85-210: the whole of _execute_substep.  Runs the try body, then the
matching except clause when it raised, and finally (lines 207-210) releases
the signature lock exactly when sig is non-None. -/
def _execute_substep (inp : SubstepIn) : FinalOut :=
  let b := runTry inp
  let fin : List Event := if b.sigNonNone then [.sigRelease] else []
  match b.res with
  | .ok r => ⟨.returned r, b.events ++ fin, b.redirected⟩
  | .error e =>
    let he := handleExc inp e b.outmsg b.errmsg
    ⟨he.1, b.events ++ he.2 ++ fin, b.redirected⟩

/-- Events of the wrapper execute_substep: the per-call result socket is
opened, the result (when one is returned) is sent on it, and the socket is
closed in the finally clause. -/
inductive WrapEvent where
  | socketOpen
  | sendResult (r : SRes)
  | socketClose
  | inner (e : Event)
deriving DecidableEq

/-- Lines 76-83: execute_substep opens the result socket, calls
_execute_substep, sends the returned result on the socket, and closes the
socket in a finally clause; a re-raised exception propagates and no result is
sent. -/
def execute_substep (inp : SubstepIn) : Outcome × List WrapEvent :=
  let f := _execute_substep inp
  match f.outcome with
  | .returned r =>
    (.returned r, .socketOpen :: (f.events.map WrapEvent.inner ++ [.sendResult r, .socketClose]))
  | .raised e =>
    (.raised e, .socketOpen :: (f.events.map WrapEvent.inner ++ [.socketClose]))

/-- Externally visible actions of the worker run loops of workers.py. -/
inductive WEvent where
  | stepStarted
  | stepCompleted
  | workflowStarted
  | workflowCompleted
  | executeJob
  | sendReady
  | resetSignal
  | killAllSubprocs
  | closeMasterSocket
  | closeResultSocket
  | disconnectControllers
deriving DecidableEq

/-- How the processing of one step request ends inside the loop of
SoS_Worker.run: normal completion, a ProcessKilled raised by the signal
handler and not caught inside the step executor, or a KeyboardInterrupt. -/
inductive ProcOutcome where
  | ok
  | killed
  | kbInt
deriving DecidableEq

/-- A work request received by SoS_Worker.run: the None shutdown sentinel, a
step request, or a workflow request.  run_workflow catches every Exception
internally and forwards it on the master socket, so a workflow request always
completes from the point of view of the loop. -/
inductive WorkMsg where
  | stop
  | step (o : ProcOutcome)
  | workflow
deriving DecidableEq

/-- One iteration of the receive loop of SoS_Worker.run: either a message
arrives, or the blocking receive is interrupted by the SIGTERM handler
raising ProcessKilled, or by a KeyboardInterrupt. -/
inductive RecvEvt where
  | msg (w : WorkMsg)
  | recvKilled
  | recvKbInt
deriving DecidableEq

/-- Lines 126-130 of workers.py: after the loop of SoS_Worker.run ends, the
worker kills all remaining subprocesses, resets the SIGTERM handler, closes
the master socket and disconnects the controllers. -/
def workerTeardown : List WEvent :=
  [.killAllSubprocs, .resetSignal, .closeMasterSocket, .disconnectControllers]

/-- Lines 90-130 of workers.py: the main loop of SoS_Worker.run.  A None
request resets the signal handler and breaks; a ProcessKilled or a
KeyboardInterrupt raised during receive or step processing is caught by the
except clauses at lines 119-125 and breaks; in every break case the teardown
after the loop runs.  An empty iteration list stands for a worker still
blocked in receive. -/
def sos_worker_run : List RecvEvt → List WEvent
  | [] => []
  | .recvKilled :: _ => workerTeardown
  | .recvKbInt :: _ => workerTeardown
  | .msg .stop :: _ => .resetSignal :: workerTeardown
  | .msg (.step .ok) :: rest => .stepStarted :: .stepCompleted :: sos_worker_run rest
  | .msg (.step .killed) :: _ => .stepStarted :: workerTeardown
  | .msg (.step .kbInt) :: _ => .stepStarted :: workerTeardown
  | .msg .workflow :: rest => .workflowStarted :: .workflowCompleted :: sos_worker_run rest

/-- One iteration of the loop of SoS_SubStep_Worker.run: the shutdown
sentinel, a job that execute_substep completes (including in-band failures),
a job from which an exception propagates out of execute_substep (the
re-raised cancellation kinds), or a ProcessKilled raised by the signal
handler while the worker waits for a request. -/
inductive SubRecv where
  | stopMsg
  | jobOk
  | jobRaises
  | recvKilled
deriving DecidableEq

/-- Lines 243-248 of workers.py: the teardown after the loop of
SoS_SubStep_Worker.run: reset the SIGTERM handler, kill remaining
subprocesses, close the result and backend sockets, disconnect the
controllers. -/
def substepTeardown : List WEvent :=
  [.resetSignal, .killAllSubprocs, .closeResultSocket, .closeMasterSocket, .disconnectControllers]

/-- Lines 234-248 of workers.py: the loop of SoS_SubStep_Worker.run.  Each
iteration sends the readiness token and receives a request; a falsy request
breaks and the teardown runs.  The loop body has no except clause, so an
exception raised during receive or propagating out of execute_substep
escapes run itself: the second component is true and the teardown events are
never reached. -/
def substep_worker_run : List SubRecv → List WEvent × Bool
  | [] => ([], false)
  | .stopMsg :: _ => (.sendReady :: substepTeardown, false)
  | .jobOk :: rest =>
    let t := substep_worker_run rest
    (.sendReady :: .executeJob :: t.1, t.2)
  | .jobRaises :: _ => ([.sendReady, .executeJob], true)
  | .recvKilled :: _ => ([.sendReady], true)

/-- A prefix of iterations of SoS_Worker.run in which every request is
processed normally (no break, no exception). -/
def okPrefix : List RecvEvt → Bool
  | [] => true
  | .msg (.step .ok) :: r => okPrefix r
  | .msg .workflow :: r => okPrefix r
  | _ => false

/-- The trace produced by a normally processed prefix of iterations of
SoS_Worker.run. -/
def okTrace : List RecvEvt → List WEvent
  | .msg (.step .ok) :: r => .stepStarted :: .stepCompleted :: okTrace r
  | .msg .workflow :: r => .workflowStarted :: .workflowCompleted :: okTrace r
  | _ => []

/-- A prefix of iterations of SoS_SubStep_Worker.run in which every job
completes normally. -/
def subOkPrefix : List SubRecv → Bool
  | [] => true
  | .jobOk :: r => subOkPrefix r
  | _ => false

/-- The trace produced by a normally processed prefix of iterations of
SoS_SubStep_Worker.run. -/
def subOkTrace : List SubRecv → List WEvent
  | .jobOk :: r => .sendReady :: .executeJob :: subOkTrace r
  | _ => []

/-- Interaction events of the relay loop of SoS_Worker.run (lines 104-114)
and of SoS_Worker.run_step (lines 197-204): a blocking receive of a reply on
the master socket, and the value handed back into the suspended step process
to resume it.  Reply payloads are abstracted as natural numbers. -/
inductive RelayEv where
  | recvReply (m : Nat)
  | resume (m : Option Nat)
deriving DecidableEq

/-- A suspendable step process: it is either finished (StopIteration) or
suspended on a yielded request, with a continuation consuming the value sent
back into it.  A request of none means no reply is needed. -/
inductive Runner where
  | done
  | yielding (req : Option Nat) (k : Option Nat → Runner)

/-- Lines 104-114 of workers.py: the relay loop driving a step process.  For
a non-None request the loop blocks to receive a reply on the master socket
(modelled as a stream with a read position) and resumes the process with it;
for a None request it resumes the process immediately with None and receives
nothing; it repeats until the process stops.  Returns the event trace and
the next unread stream position. -/
def relay : Runner → (Nat → Nat) → Nat → List RelayEv × Nat
  | .done, _, i => ([], i)
  | .yielding (some _) k, master, i =>
    let t := relay (k (some (master i))) master (i + 1)
    (.recvReply (master i) :: .resume (some (master i)) :: t.1, t.2)
  | .yielding none k, master, i =>
    let t := relay (k none) master i
    (.resume none :: t.1, t.2)

/-- The relay discipline stated by the specification: every resumption with a
reply value is immediately preceded by exactly one receive of that same
value, and every resumption with None is not paired with any receive. -/
def pairedTrace : List RelayEv → Bool
  | [] => true
  | .recvReply m :: .resume (some n) :: rest => (m == n) && pairedTrace rest
  | .resume none :: rest => pairedTrace rest
  | _ => false

/-- Line 186 of workers.py: removing a key from the namespace dictionary when
it is present; absent keys are left alone.  Dictionaries are modelled as
partial maps from strings. -/
def dict_pop {α : Type} (d : String → Option α) (k : String) : String → Option α :=
  fun x => if x = k then none else d x

/-- Lines 188 and 192 of workers.py: quick_update merges a mapping into the
namespace; keys of the update win over existing keys. -/
def quick_update {α : Type} (d u : String → Option α) : String → Option α :=
  fun x =>
    match u x with
    | some v => some v
    | none => d x

/-- Lines 184-192 of workers.py: run_step first pops the three step keys from
the namespace, then merges the shared context, then the step-local context. -/
def run_step_ns {α : Type} (d shared context : String → Option α) : String → Option α :=
  quick_update
    (quick_update
      (dict_pop (dict_pop (dict_pop d "__step_input__") "__default_output__") "__step_output__")
      shared)
    context

/-- A baseline concrete input for witnesses: signature checking disabled and
every external call succeeding. -/
def inpBase : SubstepIn :=
  { index := 0, sig_mode_ignore := true, output_unspecified := false,
    validate_res := none, lock_res := .ok (), verify_res := .ok (),
    exec_res := .ok (), exec_stdout := "out", exec_stderr := "err",
    step_output_undetermined := false, sig_write_ok := true,
    sig_out := "o1", sig_shared := "s1", capture_output := false,
    children := [], aliveAfterTerm := [], aliveAfterKill := [],
    verbosity := 2, tb_msg := "" }

/-- Concrete input in which the signature lock is acquired. -/
def inpLock : SubstepIn :=
  { inpBase with sig_mode_ignore := false }

/-- Concrete input in which signature validation finds a matching record. -/
def inpSkip : SubstepIn :=
  { inpBase with sig_mode_ignore := false, validate_res := some ⟨"mo", "mv"⟩ }

/-- Concrete input in which the statement raises while output is captured. -/
def inpLeak : SubstepIn :=
  { inpBase with capture_output := true, exec_res := .error (.other "RuntimeError" "boom") }

/-- Concrete input interrupted by a keyboard interrupt with two live child
processes, one of which survives the graceful terminate. -/
def inpCancel : SubstepIn :=
  { inpBase with
    exec_res := .error .keyboardInterrupt,
    children := [41, 42], aliveAfterTerm := [42], aliveAfterKill := [] }

/-- Concrete input whose statement raises a structured signal. -/
def inpStruct : SubstepIn :=
  { inpBase with sig_mode_ignore := false, exec_res := .error .stopInputGroup }

/-- Concrete input whose statement fails with an external command exiting
with code 2. -/
def inpCPE : SubstepIn :=
  { inpBase with exec_res := .error (.calledProcessError 2 "cmd failed") }

/-- Concrete input failing with an ArgumentError while output is captured. -/
def inpArg : SubstepIn :=
  { inpBase with capture_output := true, exec_res := .error (.argumentError "bad arg") }

/-- Concrete namespace for the run_step merge witness: holds a stale
__step_output__ and a binding for key a. -/
def dEx : String → Option Nat :=
  fun x => if x = "__step_output__" then some 7 else if x = "a" then some 1 else none

/-- Concrete shared context for the run_step merge witness. -/
def shEx : String → Option Nat :=
  fun x => if x = "a" then some 2 else none

/-- Concrete step-local context for the run_step merge witness. -/
def ctxEx : String → Option Nat :=
  fun x => if x = "a" then some 3 else none

/-- The events of afterExec never include the lock acquisition. -/
theorem afterExec_no_sigLock (inp : SubstepIn) (sigNN : Bool) (o m : String) :
    Event.sigLock ∉ (afterExec inp sigNN o m).events := by
  cases sigNN <;> cases hs : inp.step_output_undetermined <;> simp [afterExec, hs]

/-- The events of afterExec never include the lock release. -/
theorem afterExec_no_sigRelease (inp : SubstepIn) (sigNN : Bool) (o m : String) :
    Event.sigRelease ∉ (afterExec inp sigNN o m).events := by
  cases sigNN <;> cases hs : inp.step_output_undetermined <;> simp [afterExec, hs]

/-- The result of afterExec is always a success. -/
theorem afterExec_res_ok (inp : SubstepIn) (sigNN : Bool) (o m : String) :
    ∀ e, (afterExec inp sigNN o m).res ≠ .error e := by
  intro e
  simp [afterExec]

/-- The events of restOfTry never include the lock acquisition. -/
theorem restOfTry_no_sigLock (inp : SubstepIn) (s : Bool) :
    Event.sigLock ∉ (restOfTry inp s).events := by
  cases hv : inp.verify_res <;> cases hc : inp.capture_output <;> cases he : inp.exec_res <;>
    simp [restOfTry, hv, hc, he, afterExec_no_sigLock]

/-- The events of restOfTry never include the lock release. -/
theorem restOfTry_no_sigRelease (inp : SubstepIn) (s : Bool) :
    Event.sigRelease ∉ (restOfTry inp s).events := by
  cases hv : inp.verify_res <;> cases hc : inp.capture_output <;> cases he : inp.exec_res <;>
    simp [restOfTry, hv, hc, he, afterExec_no_sigRelease]

/-- When restOfTry ends in an exception, no signature write happened. -/
theorem restOfTry_no_sigWrite_of_error (inp : SubstepIn) (s : Bool) (e : Exc) :
    (restOfTry inp s).res = .error e → Event.sigWrite ∉ (restOfTry inp s).events := by
  cases hv : inp.verify_res <;> cases hc : inp.capture_output <;> cases he : inp.exec_res <;>
    simp [restOfTry, hv, hc, he, afterExec]

/-- When the lock acquisition event occurred in the try body, sig is non-None
when control reaches the finally clause. -/
theorem runTry_sigNonNone_of_sigLock (inp : SubstepIn) :
    Event.sigLock ∈ (runTry inp).events → (runTry inp).sigNonNone = true := by
  unfold runTry
  cases hsc : sigConstructed inp
  · intro h
    exact absurd (by simpa using h) (restOfTry_no_sigLock inp false)
  · cases hm : inp.validate_res
    · cases hl : inp.lock_res <;> simp
    · simp

/-- The try body never emits the lock release event; the release belongs to
the finally clause alone. -/
theorem runTry_no_sigRelease (inp : SubstepIn) :
    Event.sigRelease ∉ (runTry inp).events := by
  unfold runTry
  cases hsc : sigConstructed inp
  · simpa using restOfTry_no_sigRelease inp false
  · cases hm : inp.validate_res
    · cases hl : inp.lock_res
      · simp
      · simpa using restOfTry_no_sigRelease inp true
    · simp

/-- When the try body ends in an exception, no signature write happened. -/
theorem runTry_no_sigWrite_of_error (inp : SubstepIn) (e : Exc) :
    (runTry inp).res = .error e → Event.sigWrite ∉ (runTry inp).events := by
  unfold runTry
  cases hsc : sigConstructed inp
  · intro h
    have := restOfTry_no_sigWrite_of_error inp false e (by simpa using h)
    simpa using this
  · cases hm : inp.validate_res
    · cases hl : inp.lock_res
      · simp
      · intro h
        have := restOfTry_no_sigWrite_of_error inp true e (by simpa using h)
        simpa using this
    · simp

/-- The subprocess cleanup trace consists only of process-management events:
it never contains lock, signature or stream events. -/
theorem cancelCleanup_mem (inp : SubstepIn) (x : Event) (h : x ∈ cancelCleanup inp) :
    x = .logInterrupted ∨ x = .waitProcs ∨ (∃ p, x = .terminateProc p) ∨
      (∃ p, x = .killProc p) ∨ (∃ p, x = .logFailedKill p) := by
  unfold cancelCleanup at h
  by_cases hc : inp.children.isEmpty <;> by_cases hv : 2 < inp.verbosity <;>
    simp [hc, hv] at h <;> tauto

/-- The events of an except clause consist of the output clearing alone, or of
the output clearing followed by the subprocess cleanup. -/
theorem handleExc_events_cases (inp : SubstepIn) (e : Exc) (o m : String) :
    (handleExc inp e o m).2 = [.clearOutput] ∨
      (handleExc inp e o m).2 = .clearOutput :: cancelCleanup inp := by
  cases e <;> simp [handleExc]

/-- No except clause emits the lock acquisition event. -/
theorem handleExc_no_sigLock (inp : SubstepIn) (e : Exc) (o m : String) :
    Event.sigLock ∉ (handleExc inp e o m).2 := by
  rcases handleExc_events_cases inp e o m with h | h <;> rw [h]
  · simp
  · intro hmem
    rcases List.mem_cons.mp hmem with h1 | h1
    · exact absurd h1 (by simp)
    · rcases cancelCleanup_mem inp _ h1 with h2 | h2 | ⟨p, h2⟩ | ⟨p, h2⟩ | ⟨p, h2⟩ <;> simp at h2

/-- No except clause emits the signature write event. -/
theorem handleExc_no_sigWrite (inp : SubstepIn) (e : Exc) (o m : String) :
    Event.sigWrite ∉ (handleExc inp e o m).2 := by
  rcases handleExc_events_cases inp e o m with h | h <;> rw [h]
  · simp
  · intro hmem
    rcases List.mem_cons.mp hmem with h1 | h1
    · exact absurd h1 (by simp)
    · rcases cancelCleanup_mem inp _ h1 with h2 | h2 | ⟨p, h2⟩ | ⟨p, h2⟩ | ⟨p, h2⟩ <;> simp at h2

/-- Decomposition of _execute_substep when the try body succeeds: the result
is returned and the trace is the body trace followed by the conditional lock
release. -/
theorem exec_decomp_ok (inp : SubstepIn) (r : SRes) (h : (runTry inp).res = .ok r) :
    (_execute_substep inp).outcome = .returned r ∧
    (_execute_substep inp).events =
      (runTry inp).events ++ (if (runTry inp).sigNonNone then [Event.sigRelease] else []) := by
  unfold _execute_substep
  dsimp only
  rw [h]
  exact ⟨rfl, rfl⟩

/-- Decomposition of _execute_substep when the try body raises: the matching
except clause decides the outcome and its events run between the body trace
and the conditional lock release. -/
theorem exec_decomp_err (inp : SubstepIn) (e : Exc) (h : (runTry inp).res = .error e) :
    (_execute_substep inp).outcome = (handleExc inp e (runTry inp).outmsg (runTry inp).errmsg).1 ∧
    (_execute_substep inp).events =
      (runTry inp).events ++ (handleExc inp e (runTry inp).outmsg (runTry inp).errmsg).2 ++
        (if (runTry inp).sigNonNone then [Event.sigRelease] else []) := by
  unfold _execute_substep
  dsimp only
  rw [h]
  constructor
  · rfl
  · simp [List.append_assoc]

/-- Claim C1: in every call to _execute_substep in which the signature lock
is acquired, the lock release of the finally clause is the last event of the
call, on every exit path: normal return, structured-failure return, and
re-raised cancellation. -/
theorem C1_lock_released_on_every_path (inp : SubstepIn)
    (h : Event.sigLock ∈ (_execute_substep inp).events) :
    ∃ pre, (_execute_substep inp).events = pre ++ [Event.sigRelease] := by
  cases hr : (runTry inp).res with
  | ok r =>
    obtain ⟨-, hev⟩ := exec_decomp_ok inp r hr
    rw [hev] at h
    have hb : Event.sigLock ∈ (runTry inp).events := by
      rcases List.mem_append.mp h with h1 | h1
      · exact h1
      · exfalso
        revert h1
        split <;> simp
    have hsig := runTry_sigNonNone_of_sigLock inp hb
    refine ⟨(runTry inp).events, ?_⟩
    rw [hev, hsig]
    simp
  | error e =>
    obtain ⟨-, hev⟩ := exec_decomp_err inp e hr
    rw [hev] at h
    have hb : Event.sigLock ∈ (runTry inp).events := by
      rcases List.mem_append.mp h with h1 | h1
      · rcases List.mem_append.mp h1 with h2 | h2
        · exact h2
        · exact absurd h2 (handleExc_no_sigLock inp e _ _)
      · exfalso
        revert h1
        split <;> simp
    have hsig := runTry_sigNonNone_of_sigLock inp hb
    refine ⟨(runTry inp).events ++ (handleExc inp e (runTry inp).outmsg (runTry inp).errmsg).2, ?_⟩
    rw [hev, hsig]
    simp

/-- Witness for C1 at a concrete input that acquires the lock. -/
theorem C1_lock_released_on_every_path_witness :
    Event.sigLock ∈ (_execute_substep inpLock).events ∧
    ∃ pre, (_execute_substep inpLock).events = pre ++ [Event.sigRelease] :=
  ⟨by decide, C1_lock_released_on_every_path inpLock (by decide)⟩

/-- Claim C2: on a signature match, _execute_substep returns the stored
output and shared context with ret_code 0 and sig_skipped 1, its whole trace
is the validation followed by exactly one substep_ignored progress event, and
it neither executes the statement nor acquires or releases the lock. -/
theorem C2_signature_skip (inp : SubstepIn) (m : Matched)
    (h1 : inp.sig_mode_ignore = false) (h2 : inp.output_unspecified = false)
    (h3 : inp.validate_res = some m) :
    (_execute_substep inp).outcome =
      .returned { index := inp.index, ret_code := 0, sig_skipped := some 1,
                  output := some m.output, shared := some m.vars } ∧
    (_execute_substep inp).events = [Event.sigValidate, Event.progress "substep_ignored"] ∧
    (_execute_substep inp).events.count (Event.progress "substep_ignored") = 1 ∧
    Event.execStmt ∉ (_execute_substep inp).events ∧
    Event.sigLock ∉ (_execute_substep inp).events ∧
    Event.sigRelease ∉ (_execute_substep inp).events := by
  have hrt : runTry inp =
      ⟨.ok (skipRes inp m), [.sigValidate, .progress "substep_ignored"], false, "", "", false⟩ := by
    unfold runTry
    simp [sigConstructed, h1, h2, h3]
  obtain ⟨ho, hev⟩ := exec_decomp_ok inp (skipRes inp m) (by rw [hrt])
  rw [hrt] at hev
  simp only at hev
  rw [if_neg (by simp)] at hev
  simp only [List.append_nil] at hev
  refine ⟨?_, hev, ?_, ?_, ?_, ?_⟩
  · rw [ho]
    rfl
  · rw [hev]
    decide
  · rw [hev]
    decide
  · rw [hev]
    decide
  · rw [hev]
    decide

/-- Witness for C2 at a concrete input whose validation finds a match. -/
theorem C2_signature_skip_witness :
    inpSkip.sig_mode_ignore = false ∧ inpSkip.output_unspecified = false ∧
    inpSkip.validate_res = some ⟨"mo", "mv"⟩ ∧
    (_execute_substep inpSkip).outcome =
      .returned { index := 0, ret_code := 0, sig_skipped := some 1,
                  output := some "mo", shared := some "mv" } :=
  ⟨by decide, by decide, by decide,
    (C2_signature_skip inpSkip ⟨"mo", "mv"⟩ (by decide) (by decide) (by decide)).1⟩

/-- Claim C3, evaluated at the failing input: when capture_output is true and
the executed statement raises, the stdoutIO context manager never runs its
restore statements (it has no try/finally around the yield), so the worker
streams are left redirected when the call ends, contradicting restoration on
every path; the redirect event is in the trace but no restore event is. -/
theorem C3_stream_restore_skipped_on_raise :
    (_execute_substep inpLeak).redirected = true ∧
    Event.redirectStreams ∈ (_execute_substep inpLeak).events ∧
    Event.restoreStreams ∉ (_execute_substep inpLeak).events ∧
    (_execute_substep { inpLeak with exec_res := .ok () }).redirected = false ∧
    Event.restoreStreams ∈ (_execute_substep { inpLeak with exec_res := .ok () }).events := by
  refine ⟨by decide, by decide, by decide, by decide, by decide⟩

/-- On a cancellation kind, the except clause clears the output, runs the
subprocess cleanup and re-raises the same exception. -/
theorem handleExc_cancel (inp : SubstepIn) (e : Exc) (o m : String)
    (hc : isCancel e = true) :
    handleExc inp e o m = (.raised e, .clearOutput :: cancelCleanup inp) := by
  cases e <;> simp [isCancel] at hc <;> simp [handleExc]

/-- When _execute_substep re-raises, execute_substep propagates the exception
and its trace is the socket opening, the inner events, and the socket closing
of the finally clause, with no result sent. -/
theorem wrap_raised (inp : SubstepIn) (e : Exc)
    (h : (_execute_substep inp).outcome = .raised e) :
    execute_substep inp =
      (.raised e, .socketOpen :: ((_execute_substep inp).events.map WrapEvent.inner ++ [.socketClose])) := by
  unfold execute_substep
  dsimp only
  rw [h]

/-- Every child of the interrupted worker receives a graceful terminate. -/
theorem terminate_mem_cancelCleanup (inp : SubstepIn) (p : Nat) (hp : p ∈ inp.children) :
    Event.terminateProc p ∈ cancelCleanup inp := by
  have hne : inp.children.isEmpty = false := by
    cases hcl : inp.children
    · rw [hcl] at hp
      simp at hp
    · simp [hcl]
  unfold cancelCleanup
  rw [hne]
  simp [hp]

/-- Every survivor of the graceful terminate receives a forceful kill,
provided the worker had children at all. -/
theorem kill_mem_cancelCleanup (inp : SubstepIn) (p : Nat)
    (hne : inp.children.isEmpty = false) (hp : p ∈ inp.aliveAfterTerm) :
    Event.killProc p ∈ cancelCleanup inp := by
  unfold cancelCleanup
  rw [hne]
  simp [hp]

/-- Every process surviving the forceful kill is logged as a cleanup
failure, provided the worker had children at all. -/
theorem logFail_mem_cancelCleanup (inp : SubstepIn) (p : Nat)
    (hne : inp.children.isEmpty = false) (hp : p ∈ inp.aliveAfterKill) :
    Event.logFailedKill p ∈ cancelCleanup inp := by
  unfold cancelCleanup
  rw [hne]
  simp [hp]

/-- Every inner event of _execute_substep appears in the trace of
execute_substep. -/
theorem wrap_mem_inner (inp : SubstepIn) (x : Event)
    (h : x ∈ (_execute_substep inp).events) :
    WrapEvent.inner x ∈ (execute_substep inp).2 := by
  unfold execute_substep
  dsimp only
  cases ho : (_execute_substep inp).outcome <;> simpa using h

/-- Claim C4: on a cancellation kind (KeyboardInterrupt or SystemExit) the
executor terminates every recursive descendant, kills every survivor of the
graceful terminate, logs every process still alive after the kill, and
re-raises the cancellation through execute_substep, with no result sent on
the result channel; cancellation is the only outcome that propagates.  The
two subset hypotheses state the psutil guarantee that survivors reported by
a bounded wait come from the waited-on set. -/
theorem C4_cancellation_cleanup_then_reraise (inp : SubstepIn) (e : Exc)
    (h : (runTry inp).res = .error e) (hc : isCancel e = true)
    (hsub1 : ∀ p, p ∈ inp.aliveAfterTerm → p ∈ inp.children)
    (hsub2 : ∀ p, p ∈ inp.aliveAfterKill → p ∈ inp.aliveAfterTerm) :
    (execute_substep inp).1 = .raised e ∧
    (∀ p, p ∈ inp.children → WrapEvent.inner (Event.terminateProc p) ∈ (execute_substep inp).2) ∧
    (∀ p, p ∈ inp.aliveAfterTerm → WrapEvent.inner (Event.killProc p) ∈ (execute_substep inp).2) ∧
    (∀ p, p ∈ inp.aliveAfterKill → WrapEvent.inner (Event.logFailedKill p) ∈ (execute_substep inp).2) ∧
    (∃ pre suf, (execute_substep inp).2 = pre ++ (cancelCleanup inp).map WrapEvent.inner ++ suf) ∧
    (∀ r, WrapEvent.sendResult r ∉ (execute_substep inp).2) ∧
    (∀ inp2 e2, (_execute_substep inp2).outcome = .raised e2 → isCancel e2 = true) := by
  obtain ⟨ho, hev⟩ := exec_decomp_err inp e h
  rw [handleExc_cancel inp e _ _ hc] at ho hev
  have hmemE : ∀ x, x ∈ cancelCleanup inp → x ∈ (_execute_substep inp).events := by
    intro x hx
    rw [hev]
    exact List.mem_append.mpr (Or.inl (List.mem_append.mpr (Or.inr (List.mem_cons_of_mem _ hx))))
  have hwrap := wrap_raised inp e ho
  have hchne : ∀ p, p ∈ inp.aliveAfterTerm → inp.children.isEmpty = false := by
    intro p hp
    cases hcl : inp.children
    · exact absurd (hsub1 p hp) (by rw [hcl]; simp)
    · simp [hcl]
  refine ⟨?_, ?_, ?_, ?_, ?_, ?_, ?_⟩
  · rw [hwrap]
  · intro p hp
    exact wrap_mem_inner inp _ (hmemE _ (terminate_mem_cancelCleanup inp p hp))
  · intro p hp
    exact wrap_mem_inner inp _ (hmemE _ (kill_mem_cancelCleanup inp p (hchne p hp) hp))
  · intro p hp
    exact wrap_mem_inner inp _
      (hmemE _ (logFail_mem_cancelCleanup inp p (hchne p (hsub2 p hp)) hp))
  · refine ⟨WrapEvent.socketOpen :: ((runTry inp).events ++ [Event.clearOutput]).map WrapEvent.inner,
      ((if (runTry inp).sigNonNone then [Event.sigRelease] else []).map WrapEvent.inner)
        ++ [WrapEvent.socketClose], ?_⟩
    rw [hwrap, hev]
    simp [List.map_append, List.append_assoc]
  · intro r
    rw [hwrap]
    simp
  · intro inp2 e2 h2
    cases hr2 : (runTry inp2).res with
    | ok r2 =>
      obtain ⟨ho2, -⟩ := exec_decomp_ok inp2 r2 hr2
      rw [ho2] at h2
      exact absurd h2 (by simp)
    | error e0 =>
      obtain ⟨ho2, -⟩ := exec_decomp_err inp2 e0 hr2
      rw [ho2] at h2
      cases e0 <;> simp [handleExc] at h2 <;> subst h2 <;> rfl

/-- Witness for C4 at a concrete interrupted input with two children, one of
which survives the graceful terminate. -/
theorem C4_cancellation_cleanup_then_reraise_witness :
    (runTry inpCancel).res = .error .keyboardInterrupt ∧
    (execute_substep inpCancel).1 = .raised .keyboardInterrupt ∧
    WrapEvent.inner (Event.terminateProc 41) ∈ (execute_substep inpCancel).2 ∧
    WrapEvent.inner (Event.killProc 42) ∈ (execute_substep inpCancel).2 :=
  have h4 := C4_cancellation_cleanup_then_reraise inpCancel .keyboardInterrupt
    (by decide) (by decide) (by decide) (by decide)
  ⟨by decide, h4.1, h4.2.1 41 (by decide), h4.2.2.1 42 (by decide)⟩

/-- Claim C5: a structured control-flow signal produces a returned result
with ret_code 1 whose exception field carries the signal object; the
signature is never written on this path, and whenever sig is non-None the
lock release of the finally clause is in the trace. -/
theorem C5_structured_signal_result (inp : SubstepIn) (e : Exc)
    (h : (runTry inp).res = .error e) (hs : isStructured e = true) :
    (∃ r, (_execute_substep inp).outcome = .returned r ∧ r.ret_code = 1 ∧
      r.exception = some (.structured e)) ∧
    Event.sigWrite ∉ (_execute_substep inp).events ∧
    ((runTry inp).sigNonNone = true → Event.sigRelease ∈ (_execute_substep inp).events) := by
  obtain ⟨ho, hev⟩ := exec_decomp_err inp e h
  refine ⟨?_, ?_, ?_⟩
  · rw [ho]
    cases e <;> simp [isStructured] at hs <;>
      cases hcap : inp.capture_output <;> simp [handleExc, hcap]
  · rw [hev]
    intro hmem
    rcases List.mem_append.mp hmem with h1 | h1
    · rcases List.mem_append.mp h1 with h2 | h2
      · exact absurd h2 (runTry_no_sigWrite_of_error inp e h)
      · exact absurd h2 (handleExc_no_sigWrite inp e _ _)
    · revert h1
      split <;> simp
  · intro hsig
    rw [hev, hsig]
    simp

/-- Witness for C5 at a concrete input raising StopInputGroup while the lock
is held. -/
theorem C5_structured_signal_result_witness :
    (runTry inpStruct).res = .error .stopInputGroup ∧
    (∃ r, (_execute_substep inpStruct).outcome = .returned r ∧ r.ret_code = 1 ∧
      r.exception = some (.structured .stopInputGroup)) ∧
    Event.sigWrite ∉ (_execute_substep inpStruct).events ∧
    Event.sigRelease ∈ (_execute_substep inpStruct).events :=
  have h5 := C5_structured_signal_result inpStruct .stopInputGroup (by decide) (by decide)
  ⟨by decide, h5.1, h5.2.1, h5.2.2 (by decide)⟩

/-- Claim C7: an external command failure produces a returned result whose
ret_code is the external return code and whose exception is a plain
RuntimeError wrapping the captured standard-error text. -/
theorem C7_external_command_failure (inp : SubstepIn) (rc : Int) (st : String)
    (h : (runTry inp).res = .error (.calledProcessError rc st)) :
    ∃ r, (_execute_substep inp).outcome = .returned r ∧ r.ret_code = rc ∧
      r.exception = some (.runtimeError st) := by
  obtain ⟨ho, -⟩ := exec_decomp_err inp _ h
  rw [ho]
  cases hcap : inp.capture_output <;> simp [handleExc, hcap]

/-- Witness for C7: an external command exiting with code 2 yields ret_code
2 and a RuntimeError wrapping the stderr text. -/
theorem C7_external_command_failure_witness :
    (runTry inpCPE).res = .error (.calledProcessError 2 "cmd failed") ∧
    (∃ r, (_execute_substep inpCPE).outcome = .returned r ∧ r.ret_code = 2 ∧
      r.exception = some (.runtimeError "cmd failed")) :=
  ⟨by decide, C7_external_command_failure inpCPE 2 "cmd failed" (by decide)⟩

/-- Claim C10: an ArgumentError failure under output capture returns a result
holding only the index, ret_code 1 and the exception, omitting the captured
stdout and stderr keys, whereas every other in-band failure kind includes
them when output is captured. -/
theorem C10_argument_error_omits_capture (inp : SubstepIn) (m : String)
    (h : (runTry inp).res = .error (.argumentError m)) (hcap : inp.capture_output = true) :
    (_execute_substep inp).outcome =
      .returned { index := inp.index, ret_code := 1, exception := some (.argError m) } ∧
    (∀ inp2 e2, (runTry inp2).res = .error e2 → inp2.capture_output = true →
      isCancel e2 = false → isArgErr e2 = false →
      ∃ r2, (_execute_substep inp2).outcome = .returned r2 ∧
        r2.stdout.isSome = true ∧ r2.stderr.isSome = true) := by
  constructor
  · obtain ⟨ho, -⟩ := exec_decomp_err inp _ h
    rw [ho]
    simp [handleExc]
  · intro inp2 e2 h2 hcap2 hnc hna
    obtain ⟨ho2, -⟩ := exec_decomp_err inp2 e2 h2
    rw [ho2]
    cases e2 <;> simp [isCancel] at hnc <;> simp [isArgErr] at hna <;>
      simp [handleExc, hcap2]

/-- Witness for C10 at a concrete ArgumentError input with capture enabled,
checking that the stdout and stderr keys are absent from the result. -/
theorem C10_argument_error_omits_capture_witness :
    (runTry inpArg).res = .error (.argumentError "bad arg") ∧
    inpArg.capture_output = true ∧
    (_execute_substep inpArg).outcome =
      .returned { index := 0, ret_code := 1, exception := some (.argError "bad arg") } :=
  ⟨by decide, by decide,
    (C10_argument_error_omits_capture inpArg "bad arg" (by decide) (by decide)).1⟩

/-- A normally processed prefix factors out of the loop of SoS_Worker.run. -/
theorem sos_worker_run_append (pre l : List RecvEvt) (h : okPrefix pre = true) :
    sos_worker_run (pre ++ l) = okTrace pre ++ sos_worker_run l := by
  induction pre with
  | nil => rfl
  | cons a r ih =>
    cases a with
    | msg w =>
      cases w with
      | stop => simp [okPrefix] at h
      | step o =>
        cases o with
        | ok =>
          have hr : okPrefix r = true := by simpa [okPrefix] using h
          simp [sos_worker_run, okTrace, ih hr]
        | killed => simp [okPrefix] at h
        | kbInt => simp [okPrefix] at h
      | workflow =>
        have hr : okPrefix r = true := by simpa [okPrefix] using h
        simp [sos_worker_run, okTrace, ih hr]
    | recvKilled => simp [okPrefix] at h
    | recvKbInt => simp [okPrefix] at h

/-- A normally processed prefix factors out of the loop of
SoS_SubStep_Worker.run. -/
theorem substep_worker_run_append (pre l : List SubRecv) (h : subOkPrefix pre = true) :
    substep_worker_run (pre ++ l) =
      (subOkTrace pre ++ (substep_worker_run l).1, (substep_worker_run l).2) := by
  induction pre with
  | nil => rfl
  | cons a r ih =>
    cases a with
    | stopMsg => simp [subOkPrefix] at h
    | jobOk =>
      have hr : subOkPrefix r = true := by simpa [subOkPrefix] using h
      simp [substep_worker_run, subOkTrace, ih hr]
    | jobRaises => simp [subOkPrefix] at h
    | recvKilled => simp [subOkPrefix] at h

/-- The trace of a normally processed prefix of the substep worker contains
only readiness tokens and job executions. -/
theorem subOkTrace_mem (pre : List SubRecv) (x : WEvent) (h : x ∈ subOkTrace pre) :
    x = WEvent.sendReady ∨ x = WEvent.executeJob := by
  induction pre with
  | nil => simp [subOkTrace] at h
  | cons a r ih =>
    cases a with
    | stopMsg => simp [subOkTrace] at h
    | jobOk =>
      rcases List.mem_cons.mp h with h1 | h1
      · exact Or.inl h1
      · rcases List.mem_cons.mp h1 with h2 | h2
        · exact Or.inr h2
        · exact ih h2
    | jobRaises => simp [subOkTrace] at h
    | recvKilled => simp [subOkTrace] at h

/-- Counterexample to claim C6: a termination signal raised by the handler
while SoS_SubStep_Worker.run waits for a request propagates out of run (there
is no except clause in its loop), and none of the teardown actions - killing
subprocesses, closing the result and backend sockets, disconnecting the
controllers - is performed before the process exits. -/
theorem C6_counterexample :
    (substep_worker_run [SubRecv.recvKilled]).2 = true ∧
    WEvent.killAllSubprocs ∉ (substep_worker_run [SubRecv.recvKilled]).1 ∧
    WEvent.closeMasterSocket ∉ (substep_worker_run [SubRecv.recvKilled]).1 ∧
    WEvent.closeResultSocket ∉ (substep_worker_run [SubRecv.recvKilled]).1 ∧
    WEvent.disconnectControllers ∉ (substep_worker_run [SubRecv.recvKilled]).1 := by
  decide

/-- Claim C6 as amended: for SoS_Worker a termination signal raised during
receive or during step processing breaks the loop and the teardown (kill
subprocesses, reset handler, close socket, disconnect controllers) runs
before exit, and the interrupted request produces no completion event; for
SoS_SubStep_Worker the raised ProcessKilled propagates out of run and the
teardown is skipped. -/
theorem C6_signal_teardown_amended :
    (∀ pre rest, okPrefix pre = true →
      sos_worker_run (pre ++ RecvEvt.recvKilled :: rest) = okTrace pre ++ workerTeardown) ∧
    (∀ pre rest, okPrefix pre = true →
      sos_worker_run (pre ++ RecvEvt.msg (.step .killed) :: rest) =
        okTrace pre ++ WEvent.stepStarted :: workerTeardown) ∧
    (∀ pre rest, subOkPrefix pre = true →
      substep_worker_run (pre ++ SubRecv.recvKilled :: rest) =
        (subOkTrace pre ++ [WEvent.sendReady], true) ∧
      WEvent.killAllSubprocs ∉ (substep_worker_run (pre ++ SubRecv.recvKilled :: rest)).1 ∧
      WEvent.disconnectControllers ∉ (substep_worker_run (pre ++ SubRecv.recvKilled :: rest)).1) := by
  refine ⟨?_, ?_, ?_⟩
  · intro pre rest h
    rw [sos_worker_run_append pre _ h]
    rfl
  · intro pre rest h
    rw [sos_worker_run_append pre _ h]
    rfl
  · intro pre rest h
    have heq : substep_worker_run (pre ++ SubRecv.recvKilled :: rest) =
        (subOkTrace pre ++ [WEvent.sendReady], true) := by
      rw [substep_worker_run_append pre _ h]
      rfl
    refine ⟨heq, ?_, ?_⟩
    · rw [heq]
      intro hmem
      rcases List.mem_append.mp hmem with h1 | h1
      · rcases subOkTrace_mem pre _ h1 with h2 | h2 <;> simp at h2
      · simp at h1
    · rw [heq]
      intro hmem
      rcases List.mem_append.mp hmem with h1 | h1
      · rcases subOkTrace_mem pre _ h1 with h2 | h2 <;> simp at h2
      · simp at h1

/-- Witness for the amended C6 at concrete prefixes with one normally
processed request each. -/
theorem C6_signal_teardown_amended_witness :
    okPrefix [RecvEvt.msg (.step .ok)] = true ∧
    sos_worker_run ([RecvEvt.msg (.step .ok)] ++ RecvEvt.recvKilled :: []) =
      okTrace [RecvEvt.msg (.step .ok)] ++ workerTeardown ∧
    subOkPrefix [SubRecv.jobOk] = true ∧
    substep_worker_run ([SubRecv.jobOk] ++ SubRecv.recvKilled :: []) =
      (subOkTrace [SubRecv.jobOk] ++ [WEvent.sendReady], true) :=
  ⟨by decide, C6_signal_teardown_amended.1 [RecvEvt.msg (.step .ok)] [] (by decide),
    by decide, (C6_signal_teardown_amended.2.2 [SubRecv.jobOk] [] (by decide)).1⟩

/-- Claim C8: the relay loop driving a step process satisfies the relay
discipline for every step process and every reply stream: each non-None
request is answered by exactly one blocking receive whose value is handed
back to resume the process, each None request resumes the process
immediately with none and no receive, and the loop stops when the process
stops. -/
theorem C8_relay_discipline (r : Runner) (master : Nat → Nat) (i : Nat) :
    pairedTrace (relay r master i).1 = true := by
  induction r generalizing i with
  | done => rfl
  | yielding req k ih =>
    cases req with
    | some q => simp [relay, pairedTrace, ih]
    | none => simp [relay, pairedTrace, ih]

/-- Claim C9: run_step removes the three step keys before merging, merges the
shared context and then the step-local context, so the local context wins on
every key present in both, a key only in the shared context keeps the shared
value, and a removed key absent from both contexts ends up absent. -/
theorem C9_local_context_wins :
    (∀ (d shared context : String → Option Nat) (k : String) (v w : Nat),
      context k = some v → shared k = some w →
      run_step_ns d shared context k = some v) ∧
    (∀ (d shared context : String → Option Nat) (k : String) (w : Nat),
      context k = none → shared k = some w →
      run_step_ns d shared context k = some w) ∧
    (∀ (d shared context : String → Option Nat) (k : String),
      (k = "__step_input__" ∨ k = "__default_output__" ∨ k = "__step_output__") →
      context k = none → shared k = none →
      run_step_ns d shared context k = none) := by
  refine ⟨?_, ?_, ?_⟩
  · intro d shared context k v w hc hs
    simp [run_step_ns, quick_update, hc]
  · intro d shared context k w hc hs
    simp [run_step_ns, quick_update, hc, hs]
  · intro d shared context k hk hc hs
    rcases hk with hk | hk | hk <;> subst hk <;>
      simp [run_step_ns, quick_update, dict_pop, hc, hs]

/-- Witness for C9 at concrete namespaces: key a is bound in all three maps
and ends with the local value; the stale __step_output__ entry is removed. -/
theorem C9_local_context_wins_witness :
    ctxEx "a" = some 3 ∧ shEx "a" = some 2 ∧
    run_step_ns dEx shEx ctxEx "a" = some 3 ∧
    ctxEx "__step_output__" = none ∧ shEx "__step_output__" = none ∧
    dEx "__step_output__" = some 7 ∧
    run_step_ns dEx shEx ctxEx "__step_output__" = none :=
  ⟨by decide, by decide,
    C9_local_context_wins.1 dEx shEx ctxEx "a" 3 2 (by decide) (by decide),
    by decide, by decide, by decide,
    C9_local_context_wins.2.2 dEx shEx ctxEx "__step_output__" (Or.inr (Or.inr rfl))
      (by decide) (by decide)⟩
